import Mathlib

/-!
# Verification of the folder-permission reporting service (`main.py`)

Shallow embedding of the core logic of `src/main.py`:

* `get_folder_permissions` — enumerates the ACEs of a folder's DACL into
  permission records (the Windows security API is abstracted by `Env`);
* `get_subfolders_walk` — shallow directory listing via `next(os.walk(...))`;
* `write_permissions_to_csv` — CSV report writing (Python `csv` module,
  default dialect: QUOTE_MINIMAL, `,` delimiter, `"` quotechar, doubled
  quotes, `\r\n` line terminator), modelled as producing the file content;
* `submit_link` — the `/submit_link` request handler orchestration.

The OS surface (path existence, `GetFileSecurity`, `os.walk`) is a parameter
`Env`; exceptions raised by `GetFileSecurity` are modelled as `Except.error`
carrying the exception's string form.
-/

namespace NetworkTool

/-- The double-quote character, written via its code point. -/
def dq : Char := Char.ofNat 34

/-! ## Data model -/

/-- One output row, the dictionary built at `main.py` lines 79–84 and 89–94.
Field names follow the dict keys "Folder Path", "Principal", "Type",
"Permissions" (the spec calls the third field `entry_type`). -/
structure PermissionRecord where
  folder_path : String
  principal : String
  entry_type : String
  permissions : String
deriving DecidableEq, Repr

/-- One ACE as the code reads it: `ace[0][0]` is the type tag, `ace[1]` the
access mask, `ace[2]` the SID.  `sid` is the SID's string form `str(sid)`;
`lookup` is `some (user_name, domain)` when `LookupAccountSid` succeeds and
`none` when it raises. -/
structure Ace where
  ace_type : Nat
  access_mask : Nat
  sid : String
  lookup : Option (String × String)
deriving DecidableEq, Repr

/-- The OS surface the code calls.  `get_file_security` models
`GetFileSecurity` followed by `GetSecurityDescriptorDacl`: an exception is
`Except.error` (carrying `str(e)`), a missing DACL is `Except.ok none`, and a
present DACL is its ACE list in native order.  `walk` models
`next(os.walk(p))`: `some (dirpath, dirnames)` on success, `none` when the
scan yields nothing or raises (`StopIteration`, `FileNotFoundError`,
`PermissionError`). -/
structure Env where
  path_exists : String → Bool
  get_file_security : String → Except String (Option (List Ace))
  walk : String → Option (String × List String)

/-! ## Constants from `win32security` / `ntsecuritycon` -/

def ACCESS_ALLOWED_ACE_TYPE : Nat := 0
def FILE_ALL_ACCESS : Nat := 0x1F01FF
def FILE_GENERIC_READ : Nat := 0x120089
def FILE_GENERIC_WRITE : Nat := 0x120116
def FILE_GENERIC_EXECUTE : Nat := 0x1200A0
def DELETE : Nat := 0x10000

/-! ## Permission enumerator (`get_folder_permissions`, lines 37–96) -/

/-- The mask-to-labels decoding of lines 67–77: full control wins outright;
otherwise the four bit groups are tested in the fixed order Read, Write,
Execute, Delete (Python truthiness: a nonzero `&` result counts as set);
an empty label list becomes the synthetic "Special (Mask: n)" label. -/
def decode_mask (access_mask : Nat) : List String :=
  let perms_list :=
    if access_mask &&& FILE_ALL_ACCESS = FILE_ALL_ACCESS then
      ["Full Control"]
    else
      (if access_mask &&& FILE_GENERIC_READ ≠ 0 then ["Read"] else []) ++
      (if access_mask &&& FILE_GENERIC_WRITE ≠ 0 then ["Write"] else []) ++
      (if access_mask &&& FILE_GENERIC_EXECUTE ≠ 0 then ["Execute"] else []) ++
      (if access_mask &&& DELETE ≠ 0 then ["Delete"] else [])
  if perms_list.isEmpty then [s!"Special (Mask: {access_mask})"] else perms_list

/-- The record built for one ACE, lines 56–84: principal resolution with
fallback to `str(sid)`, Allow/Deny classification by the type tag, and the
", "-joined permission labels. -/
def make_record (folder_path : String) (ace : Ace) : PermissionRecord :=
  let principal :=
    match ace.lookup with
    | some (user_name, domain) => s!"{domain}\\{user_name}"
    | none => ace.sid
  let t := if ace.ace_type = ACCESS_ALLOWED_ACE_TYPE then "Allow" else "Deny"
  ⟨folder_path, principal, t, String.intercalate ", " (decode_mask ace.access_mask)⟩

/-- `get_folder_permissions` (lines 37–96): missing path → `[]`; descriptor
retrieval throwing → exactly one Error record; missing DACL → `[]`; otherwise
one record per ACE in DACL order. -/
def get_folder_permissions (env : Env) (folder_path : String) : List PermissionRecord :=
  if ¬ env.path_exists folder_path then
    []
  else
    match env.get_file_security folder_path with
    | Except.error e =>
        [⟨folder_path, "N/A", "Error", "Could not access permissions: " ++ e⟩]
    | Except.ok none => []
    | Except.ok (some dacl) => dacl.map (make_record folder_path)

/-! ## Shallow directory lister (`get_subfolders_walk`, lines 99–108) -/

/-- `os.path.join` on Windows (the target platform of `win32security`). -/
def os_path_join (a b : String) : String := a ++ "\\" ++ b

/-- `get_subfolders_walk` (lines 99–108): one `next(os.walk(...))` step,
joining each child directory name onto the yielded dirpath; all failures
absorbed into `[]`. -/
def get_subfolders_walk (env : Env) (parent_folder : String) : List String :=
  match env.walk parent_folder with
  | some (dirpath, dirnames) => dirnames.map (fun name => os_path_join dirpath name)
  | none => []

/-! ## CSV serialization (`write_permissions_to_csv`, lines 110–132)

Python's `csv.DictWriter` with the default dialect: fields joined by `,`,
rows terminated by `\r\n`, a field quoted (QUOTE_MINIMAL) exactly when it
contains the delimiter, the quote character, or a line-terminator character,
with embedded quote characters doubled.  The writer below produces the file
content as a character list; the reader implements the matching parse, so the
round-trip can be proved. -/

/-- Whether QUOTE_MINIMAL must quote this field: it contains `,`, `"`,
`\r` or `\n`. -/
def needsQuote (s : List Char) : Bool :=
  s.any (fun c => c = ',' || c = dq || c = '\r' || c = '\n')

/-- Double every embedded quote character. -/
def escQ : List Char → List Char
  | [] => []
  | c :: cs => if c = dq then dq :: dq :: escQ cs else c :: escQ cs

/-- Serialize one field: quoted with doubled quotes when needed, verbatim
otherwise. -/
def writeField (s : List Char) : List Char :=
  if needsQuote s then dq :: (escQ s ++ [dq]) else s

/-- Serialize one row: fields joined by `,`, terminated by `\r\n`. -/
def writeRow : List (List Char) → List Char
  | [] => ['\r', '\n']
  | [f] => writeField f ++ ['\r', '\n']
  | f :: g :: fs => writeField f ++ ',' :: writeRow (g :: fs)

/-- Serialize a sequence of rows. -/
def writeRows : List (List (List Char)) → List Char
  | [] => []
  | r :: rs => writeRow r ++ writeRows rs

/-- Read the body of a quoted field (the opening quote already consumed):
a doubled quote is a literal quote, a single quote ends the field. -/
def parseQuoted : List Char → List Char × List Char
  | [] => ([], [])
  | c :: rest =>
    if c = dq then
      match rest with
      | [] => ([], [])
      | d :: rest2 =>
        if d = dq then
          let p := parseQuoted rest2
          (dq :: p.1, p.2)
        else ([], rest)
    else
      let p := parseQuoted rest
      (c :: p.1, p.2)

/-- Read an unquoted field: everything up to a delimiter or line break. -/
def parseUnquoted : List Char → List Char × List Char
  | [] => ([], [])
  | c :: rest =>
    if c = ',' ∨ c = '\r' ∨ c = '\n' then ([], c :: rest)
    else
      let p := parseUnquoted rest
      (c :: p.1, p.2)

/-- Read one field, dispatching on an opening quote. -/
def parseField (cs : List Char) : List Char × List Char :=
  match cs with
  | [] => ([], [])
  | c :: _ => if c = dq then parseQuoted cs.tail else parseUnquoted cs

/-- Read the fields of one row (fuelled; fuel bounds the field count).
Returns the fields and the input remaining after the row terminator. -/
def parseFieldsAux : Nat → List Char → List (List Char) × List Char
  | 0, cs => ([], cs)
  | fuel + 1, cs =>
    let p := parseField cs
    match p.2 with
    | [] => ([p.1], [])
    | c :: rest2 =>
      if c = ',' then
        let q := parseFieldsAux fuel rest2
        (p.1 :: q.1, q.2)
      else if c = '\r' then
        match rest2 with
        | '\n' :: rest3 => ([p.1], rest3)
        | _ => ([p.1], rest2)
      else if c = '\n' then ([p.1], rest2)
      else ([p.1], [])

/-- Read rows until the input is exhausted (fuelled; fuel bounds the row
count). -/
def parseRowsAux : Nat → List Char → List (List (List Char))
  | 0, _ => []
  | fuel + 1, cs =>
    if cs.isEmpty then []
    else
      let p := parseFieldsAux (cs.length + 1) cs
      p.1 :: parseRowsAux fuel p.2

/-- Parse a whole CSV file into its rows of fields. -/
def parseCsv (cs : List Char) : List (List (List Char)) :=
  parseRowsAux (cs.length + 1) cs

/-- The header row, line 121: exactly these four names, in this order. -/
def headers : List String := ["Folder Path", "Principal", "Type", "Permissions"]

/-- The field values of one record in header order (what `DictWriter`
emits for the row's dict). -/
def recordFields (r : PermissionRecord) : List String :=
  [r.folder_path, r.principal, r.entry_type, r.permissions]

/-- File content for a list of string rows. -/
def csvContent (rows : List (List String)) : List Char :=
  writeRows (rows.map (fun row => row.map String.data))

/-- `write_permissions_to_csv` (lines 110–132): an empty record list yields
`none` (no file is created); otherwise the timestamped file is written with
the header row followed by the records in order, and the base filename is
returned.  The result pairs the returned filename with the file content
written to disk. -/
def write_permissions_to_csv (timestamp : String) (data_list : List PermissionRecord) :
    Option (String × List Char) :=
  if data_list.isEmpty then none
  else
    some ("permissions_report_" ++ timestamp ++ ".csv",
          csvContent (headers :: data_list.map recordFields))

/-! ## Request orchestration (`submit_link`, lines 141–175) -/

/-- Observable outcome of one `/submit_link` request: the HTTP status, the
filename echoed in the JSON response, and the report file created on disk
(name and content), if any. -/
structure SubmitResponse where
  status : Nat
  filename : Option String
  file_written : Option (String × List Char)
deriving DecidableEq, Repr

/-- The aggregation loop of lines 153–161: start from the parent folder's
records and extend with each subfolder's records, in lister order. -/
def aggregate (env : Env) (link : String) : List PermissionRecord :=
  (get_subfolders_walk env link).foldl
    (fun acc folder => acc ++ get_folder_permissions env folder)
    (get_folder_permissions env link)

/-- `submit_link` (lines 141–175): a missing, empty, or non-existent path is
rejected with 400 before any enumeration; an empty aggregate is a 500; a
writer failure is a 500; otherwise the report is written and its filename
returned with status 200. -/
def submit_link (env : Env) (timestamp : String) (link : Option String) : SubmitResponse :=
  match link with
  | none => ⟨400, none, none⟩
  | some l =>
    if l = "" ∨ ¬ env.path_exists l then ⟨400, none, none⟩
    else
      let all_permissions := aggregate env l
      if all_permissions.isEmpty then ⟨500, none, none⟩
      else
        match write_permissions_to_csv timestamp all_permissions with
        | some (name, content) => ⟨200, some name, some (name, content)⟩
        | none => ⟨500, none, none⟩

/-! ## Spec-side decoder and sample environments -/

/-- Mask decoding as the specification words it (§4.1): if the mask's bits
are a superset of the full-control pattern the label set is exactly
`["Full Control"]`; otherwise the four bit groups are tested in the fixed
order Read, Write, Execute, Delete, and if no label qualifies a single
synthetic label embedding the raw mask is emitted.  Written from the spec's
words, to be compared against `decode_mask` (written from the code). -/
def decode_mask_spec (mask : Nat) : List String :=
  if mask &&& FILE_ALL_ACCESS = FILE_ALL_ACCESS then
    ["Full Control"]
  else
    let labels :=
      (if mask &&& FILE_GENERIC_READ ≠ 0 then ["Read"] else []) ++
      (if mask &&& FILE_GENERIC_WRITE ≠ 0 then ["Write"] else []) ++
      (if mask &&& FILE_GENERIC_EXECUTE ≠ 0 then ["Execute"] else []) ++
      (if mask &&& DELETE ≠ 0 then ["Delete"] else [])
    if labels.isEmpty then [s!"Special (Mask: {mask})"] else labels

/-- Predicate on the input remaining after a serialized field: inside a
serialized row a field is always followed by the delimiter or the line
terminator. -/
def sepHead (rest : List Char) : Prop :=
  ∀ c t, rest = c :: t → c = ',' ∨ c = '\r'

/-- An environment in which no path exists and every scan fails. -/
def envMissing : Env :=
  ⟨fun _ => false, fun _ => Except.ok none, fun _ => none⟩

/-- An environment in which every path exists but every descriptor
retrieval raises an exception rendered as `msg`. -/
def envThrow (msg : String) : Env :=
  ⟨fun _ => true, fun _ => Except.error msg, fun _ => none⟩

/-- An environment in which every path exists, every folder has a one-ACE
DACL granting SYSTEM full control, and every folder has two child
directories. -/
def envDemo : Env :=
  ⟨fun _ => true,
   fun _ => Except.ok (some [⟨0, 0x1F01FF, "S-1-5-18", some ("SYSTEM", "NT AUTHORITY")⟩]),
   fun p => some (p, ["alpha", "beta"])⟩

/-! ## Theorems -/

/-- C1: the permission enumerator treats the two failure shapes
asymmetrically — a non-existent path yields an empty sequence, while a path
that exists but whose security-descriptor retrieval throws yields exactly
one record with `entry_type = "Error"` and a diagnostic permissions
string. -/
theorem enumerate_missing_vs_throw (env : Env) (p : String) :
    (env.path_exists p = false → get_folder_permissions env p = []) ∧
    (∀ e, env.path_exists p = true → env.get_file_security p = Except.error e →
      get_folder_permissions env p =
        [⟨p, "N/A", "Error", "Could not access permissions: " ++ e⟩]) := by
  constructor
  · intro h
    simp [get_folder_permissions, h]
  · intro e h1 h2
    simp [get_folder_permissions, h1, h2]

/-- C1 witness: both branches at concrete environments. -/
theorem enumerate_missing_vs_throw_witness :
    get_folder_permissions envMissing "C:\\data" = [] ∧
    get_folder_permissions (envThrow "Access is denied.") "C:\\data" =
      [⟨"C:\\data", "N/A", "Error", "Could not access permissions: Access is denied."⟩] :=
  ⟨(enumerate_missing_vs_throw envMissing "C:\\data").1 rfl,
   (enumerate_missing_vs_throw (envThrow "Access is denied.") "C:\\data").2
     "Access is denied." rfl rfl⟩

/-- C2: any access mask whose bits are a superset of the full-control
pattern decodes to exactly `["Full Control"]`, with no other labels,
and the record's permissions string is exactly "Full Control". -/
theorem decode_mask_full_control (mask : Nat)
    (h : mask &&& FILE_ALL_ACCESS = FILE_ALL_ACCESS) :
    decode_mask mask = ["Full Control"] ∧
    ∀ folder ace, ace.access_mask = mask →
      (make_record folder ace).permissions = "Full Control" := by
  constructor
  · simp [decode_mask, h]
  · intro folder ace ha
    simp [make_record, decode_mask, ha, h]
    rfl

/-- C2 witness: a mask strictly above the full-control pattern. -/
theorem decode_mask_full_control_witness :
    decode_mask 0xFFFFFFFF = ["Full Control"] :=
  (decode_mask_full_control 0xFFFFFFFF (by decide)).1

/-- C3: the decoder implements exactly the spec's algorithm — full control
wins; otherwise the four bit groups generic read / generic write / generic
execute / delete are tested, appending Read, Write, Execute, Delete in that
fixed order, with a synthetic "Special (Mask: n)" label when none qualifies —
and the label set is joined with ", " into the record's display string. -/
theorem decode_mask_matches_spec :
    (∀ mask, decode_mask mask = decode_mask_spec mask) ∧
    (∀ folder ace, (make_record folder ace).permissions =
      String.intercalate ", " (decode_mask_spec ace.access_mask)) := by
  have h : ∀ mask, decode_mask mask = decode_mask_spec mask := by
    intro mask
    by_cases hm : mask &&& FILE_ALL_ACCESS = FILE_ALL_ACCESS
    · simp [decode_mask, decode_mask_spec, hm]
    · simp [decode_mask, decode_mask_spec, hm]
  exact ⟨h, fun folder ace => by simp [make_record, h]⟩

/-- C5: the report writer returns `none` — no file content at all — on an
empty record sequence. -/
theorem write_report_empty_none (timestamp : String) :
    write_permissions_to_csv timestamp [] = none := rfl

/-- C7: the shallow directory lister returns an empty sequence both when the
underlying scan fails (path missing, permission denied, scan yielding
nothing — all `none` in the model) and when the scan succeeds with zero
child directories; it never propagates an error. -/
theorem subfolders_walk_failure_empty (env : Env) (p : String) :
    (env.walk p = none → get_subfolders_walk env p = []) ∧
    (∀ d, env.walk p = some (d, []) → get_subfolders_walk env p = []) := by
  constructor
  · intro h
    simp [get_subfolders_walk, h]
  · intro d h
    simp [get_subfolders_walk, h]

/-- C7 witness: an environment whose scan always fails. -/
theorem subfolders_walk_failure_empty_witness :
    get_subfolders_walk envMissing "C:\\data" = [] :=
  (subfolders_walk_failure_empty envMissing "C:\\data").1 rfl

/-- C8: a missing, empty, or non-existent submitted path produces a 400
response with no filename and no report file written. -/
theorem submit_link_invalid_path_400 (env : Env) (timestamp : String)
    (link : Option String)
    (h : link = none ∨ link = some "" ∨
      ∃ l, link = some l ∧ env.path_exists l = false) :
    submit_link env timestamp link = ⟨400, none, none⟩ := by
  rcases h with h | h | ⟨l, hl, hpe⟩
  · subst h
    rfl
  · subst h
    simp [submit_link]
  · subst hl
    simp [submit_link, hpe]

/-- C8 witness: a non-existent path. -/
theorem submit_link_invalid_path_400_witness :
    submit_link envMissing "2025-01-01_00-00-00" (some "C:\\nope") =
      ⟨400, none, none⟩ :=
  submit_link_invalid_path_400 envMissing "2025-01-01_00-00-00" (some "C:\\nope")
    (Or.inr (Or.inr ⟨"C:\\nope", rfl, rfl⟩))

/-- C9: every ACE whose type tag is not the access-allowed type is
classified "Deny", the per-ACE classification is always "Allow" or "Deny",
and hence every record the enumerator emits has `entry_type` equal to
"Allow", "Deny", or "Error". -/
theorem entry_type_allow_or_deny (env : Env) (p folder : String) (ace : Ace)
    (r : PermissionRecord) :
    ((make_record folder ace).entry_type = "Allow" ∨
      (make_record folder ace).entry_type = "Deny") ∧
    (ace.ace_type ≠ ACCESS_ALLOWED_ACE_TYPE →
      (make_record folder ace).entry_type = "Deny") ∧
    (r ∈ get_folder_permissions env p →
      r.entry_type = "Allow" ∨ r.entry_type = "Deny" ∨ r.entry_type = "Error") := by
  have hmk : ∀ (f : String) (a : Ace),
      (make_record f a).entry_type = "Allow" ∨ (make_record f a).entry_type = "Deny" := by
    intro f a
    by_cases h : a.ace_type = ACCESS_ALLOWED_ACE_TYPE
    · left
      simp [make_record, h]
    · right
      simp [make_record, h]
  refine ⟨hmk folder ace, ?_, ?_⟩
  · intro h
    simp [make_record, h]
  · intro hr
    unfold get_folder_permissions at hr
    split at hr
    · simp at hr
    · split at hr
      · simp at hr
        subst hr
        right; right; rfl
      · simp at hr
      · rcases List.mem_map.mp hr with ⟨a, _, rfl⟩
        rcases hmk p a with h | h
        · left; exact h
        · right; left; exact h

/-- C9 witness: a system-audit-typed ACE (type tag 2) collapses to "Deny". -/
theorem entry_type_allow_or_deny_witness :
    (make_record "C:\\d" ⟨2, 0, "S-1-1-0", none⟩).entry_type = "Deny" :=
  (entry_type_allow_or_deny envMissing "C:\\d" "C:\\d" ⟨2, 0, "S-1-1-0", none⟩
    ⟨"", "", "", ""⟩).2.1 (by decide)

/-- C10: the single record produced when descriptor retrieval throws has
principal exactly "N/A" and permissions exactly
"Could not access permissions: " followed by the exception detail. -/
theorem error_record_fields (env : Env) (p e : String)
    (h1 : env.path_exists p = true)
    (h2 : env.get_file_security p = Except.error e) :
    get_folder_permissions env p =
      [{ folder_path := p, principal := "N/A", entry_type := "Error",
         permissions := "Could not access permissions: " ++ e }] := by
  simp [get_folder_permissions, h1, h2]

/-- C10 witness: a concrete throwing environment. -/
theorem error_record_fields_witness :
    get_folder_permissions (envThrow "boom") "D:\\x" =
      [{ folder_path := "D:\\x", principal := "N/A", entry_type := "Error",
         permissions := "Could not access permissions: boom" }] :=
  error_record_fields (envThrow "boom") "D:\\x" "boom" rfl rfl

/-! ## CSV round-trip lemmas -/

/-- A separator-headed remainder never starts with a quote character. -/
theorem sepHead_head_ne_dq (rest : List Char) (h : sepHead rest) :
    rest.head? ≠ some dq := by
  cases rest with
  | nil => simp
  | cons c t =>
    rcases h c t rfl with h | h <;> subst h <;>
      simp only [List.head?_cons, ne_eq, Option.some.injEq] <;> decide

/-- Reading a quoted field body undoes quote doubling, provided the
remainder does not itself start with a quote. -/
theorem parseQuoted_escQ (f rest : List Char) (h : rest.head? ≠ some dq) :
    parseQuoted (escQ f ++ dq :: rest) = (f, rest) := by
  induction f with
  | nil =>
    cases rest with
    | nil => simp [escQ, parseQuoted]
    | cons d t =>
      have hd : ¬ d = dq := by simpa using h
      simp [escQ, parseQuoted, hd]
  | cons c cs ih =>
    by_cases hc : c = dq
    · subst hc
      simp only [escQ, if_pos rfl, List.cons_append]
      rw [parseQuoted.eq_def]
      simp [ih]
    · simp only [escQ, if_neg hc, List.cons_append]
      rw [parseQuoted.eq_def]
      simp [hc, ih]

/-- Reading an unquoted field stops exactly at the separator. -/
theorem parseUnquoted_append (f rest : List Char) (hf : needsQuote f = false)
    (hr : sepHead rest) :
    parseUnquoted (f ++ rest) = (f, rest) := by
  induction f with
  | nil =>
    cases rest with
    | nil => simp [parseUnquoted]
    | cons c t =>
      rcases hr c t rfl with h | h <;> subst h <;> simp [parseUnquoted]
  | cons c cs ih =>
    simp only [needsQuote, List.any_cons, Bool.or_eq_false_iff,
      decide_eq_false_iff_not] at hf
    have hc : ¬ (c = ',' ∨ c = '\r' ∨ c = '\n') := by tauto
    have hcs : needsQuote cs = false := by
      simp only [needsQuote]
      exact hf.2
    simp [parseUnquoted, hc, ih hcs]

/-- Reading back a serialized field recovers it exactly and leaves the
separator-headed remainder untouched. -/
theorem parseField_writeField (f rest : List Char) (hr : sepHead rest) :
    parseField (writeField f ++ rest) = (f, rest) := by
  by_cases hq : needsQuote f
  · have hhd := sepHead_head_ne_dq rest hr
    have heq : writeField f ++ rest = dq :: (escQ f ++ dq :: rest) := by
      simp [writeField, hq]
    rw [heq]
    simp [parseField, parseQuoted_escQ f rest hhd]
  · have hq' : needsQuote f = false := by simpa using hq
    have heq : writeField f ++ rest = f ++ rest := by
      simp [writeField, hq']
    rw [heq]
    cases f with
    | nil =>
      cases rest with
      | nil => simp [parseField]
      | cons c t =>
        have hcd : ¬ c = dq := by
          rcases hr c t rfl with h | h <;> subst h <;> decide
        have := parseUnquoted_append [] (c :: t) (by simp [needsQuote]) hr
        simpa [parseField, hcd] using this
    | cons c cs =>
      have hcd : ¬ c = dq := by
        simp only [needsQuote, List.any_cons, Bool.or_eq_false_iff,
          decide_eq_false_iff_not] at hq'
        tauto
      have := parseUnquoted_append (c :: cs) rest hq' hr
      simpa [parseField, hcd] using this

/-- Reading back one serialized row recovers its fields and consumes the row
terminator, for any nonempty field list and enough fuel. -/
theorem parseFieldsAux_writeRow (row : List (List Char)) (hne : row ≠ []) :
    ∀ (fuel : Nat) (rest : List Char), row.length ≤ fuel →
      parseFieldsAux fuel (writeRow row ++ rest) = (row, rest) := by
  induction row with
  | nil => exact absurd rfl hne
  | cons f tail ih =>
    intro fuel rest hlen
    cases fuel with
    | zero => simp at hlen
    | succ k =>
      cases tail with
      | nil =>
        have heq : writeRow [f] ++ rest = writeField f ++ ('\r' :: '\n' :: rest) := by
          simp [writeRow]
        have hsep : sepHead ('\r' :: '\n' :: rest) := by
          intro c t hct
          cases hct
          right; rfl
        have hp := parseField_writeField f ('\r' :: '\n' :: rest) hsep
        rw [heq]
        simp [parseFieldsAux, hp]
      | cons g gs =>
        have heq : writeRow (f :: g :: gs) ++ rest =
            writeField f ++ (',' :: (writeRow (g :: gs) ++ rest)) := by
          simp [writeRow]
        have hsep : sepHead (',' :: (writeRow (g :: gs) ++ rest)) := by
          intro c t hct
          cases hct
          left; rfl
        have hp := parseField_writeField f (',' :: (writeRow (g :: gs) ++ rest)) hsep
        have hih := ih (by simp) k rest (by simpa using Nat.le_of_succ_le_succ hlen)
        rw [heq]
        simp [parseFieldsAux, hp, hih]

/-- A serialized row is never empty. -/
theorem writeRow_ne_nil (row : List (List Char)) : writeRow row ≠ [] := by
  cases row with
  | nil => simp [writeRow]
  | cons f t => cases t <;> simp [writeRow]

/-- A row's serialization is at least as long as its field count. -/
theorem length_le_writeRow (row : List (List Char)) :
    row.length ≤ (writeRow row).length := by
  induction row with
  | nil => simp [writeRow]
  | cons f t ih =>
    cases t with
    | nil => simp [writeRow]
    | cons g gs =>
      simp only [writeRow, List.length_append, List.length_cons] at ih ⊢
      omega

/-- A file's serialization is at least as long as its row count. -/
theorem length_le_writeRows (rows : List (List (List Char))) :
    rows.length ≤ (writeRows rows).length := by
  induction rows with
  | nil => simp [writeRows]
  | cons r rs ih =>
    have h1 : 0 < (writeRow r).length := List.length_pos.mpr (writeRow_ne_nil r)
    simp only [writeRows, List.length_append, List.length_cons]
    omega

/-- Reading back a serialized row sequence recovers it exactly, for rows
with at least one field each and enough fuel. -/
theorem parseRowsAux_writeRows (rows : List (List (List Char)))
    (h : ∀ r ∈ rows, r ≠ []) :
    ∀ fuel, rows.length ≤ fuel → parseRowsAux fuel (writeRows rows) = rows := by
  induction rows with
  | nil =>
    intro fuel _
    cases fuel <;> simp [parseRowsAux, writeRows]
  | cons r rs ih =>
    intro fuel hlen
    cases fuel with
    | zero => simp at hlen
    | succ k =>
      have hne : writeRow r ++ writeRows rs ≠ [] := by
        intro hc
        exact writeRow_ne_nil r (List.append_eq_nil.mp hc).1
      have hlenr : r.length ≤ (writeRow r ++ writeRows rs).length + 1 := by
        have := length_le_writeRow r
        simp only [List.length_append]
        omega
      have hp := parseFieldsAux_writeRow r (h r (by simp))
        ((writeRow r ++ writeRows rs).length + 1) (writeRows rs) hlenr
      have hih := ih (fun x hx => h x (by simp [hx])) k
        (by simpa using Nat.le_of_succ_le_succ hlen)
      simp only [List.length_append] at hp
      simp [parseRowsAux, writeRows, hne, hp, hih]

/-- Full CSV round-trip at the character level: parsing a serialized file
recovers every row and every field exactly, whatever characters the fields
contain, as long as each row has at least one field. -/
theorem parseCsv_writeRows (rows : List (List (List Char)))
    (h : ∀ r ∈ rows, r ≠ []) :
    parseCsv (writeRows rows) = rows :=
  parseRowsAux_writeRows rows h _
    (Nat.le_trans (length_le_writeRows rows) (Nat.le_succ _))

/-- C4: for every non-empty record sequence the report writer produces a
file whose parsed content is exactly the four-column header row followed by
one row per record in the caller-supplied order — CSV quoting makes every
field value, including ones containing commas, quotes, or newlines,
round-trip exactly. -/
theorem csv_report_roundtrip (timestamp : String) (records : List PermissionRecord)
    (h : records ≠ []) :
    ∃ name content,
      write_permissions_to_csv timestamp records = some (name, content) ∧
      (parseCsv content).map (fun row => row.map String.mk) =
        headers :: records.map recordFields := by
  have hne : records.isEmpty = false := List.isEmpty_eq_false.mpr h
  refine ⟨"permissions_report_" ++ timestamp ++ ".csv",
    csvContent (headers :: records.map recordFields), ?_, ?_⟩
  · simp [write_permissions_to_csv, hne]
  · have hrows : ∀ r ∈ (headers :: records.map recordFields).map
        (fun row => row.map String.data), r ≠ [] := by
      intro r hr
      rcases List.mem_map.mp hr with ⟨q, hq, rfl⟩
      rcases List.mem_cons.mp hq with hq | hq
      · subst hq
        simp [headers]
      · rcases List.mem_map.mp hq with ⟨rec, _, rfl⟩
        simp [recordFields]
    rw [csvContent, parseCsv_writeRows _ hrows]
    have hcomp : (String.mk ∘ String.data) = id := funext fun _ => rfl
    simp [List.map_map, hcomp]

/-- C4 witness: the spec's own example record. -/
theorem csv_report_roundtrip_witness :
    ∃ name content,
      write_permissions_to_csv "2025-01-01_00-00-00"
        [⟨"/a", "U1", "Allow", "Read"⟩] = some (name, content) ∧
      (parseCsv content).map (fun row => row.map String.mk) =
        headers :: [(⟨"/a", "U1", "Allow", "Read"⟩ : PermissionRecord)].map recordFields :=
  csv_report_roundtrip "2025-01-01_00-00-00" [⟨"/a", "U1", "Allow", "Read"⟩]
    (by simp)

/-! ## Concatenation order (`submit_link`) -/

/-- Folding list extension over a list equals prepending the seed to the
flattened mapped results. -/
theorem foldl_append_flatten {α β : Type} (l : List α) (g : α → List β)
    (init : List β) :
    l.foldl (fun acc x => acc ++ g x) init = init ++ (l.map g).flatten := by
  induction l generalizing init with
  | nil => simp
  | cons x xs ih => simp [ih, List.append_assoc]

/-- C6: the record sequence the handler passes to the report writer is the
enumerator's records for the parent path, followed by each subdirectory's
records in lister order; on a valid path with a nonempty aggregate the
written file is exactly the report for that sequence. -/
theorem submit_link_concatenation_order (env : Env) (timestamp : String)
    (l : String) (h1 : l ≠ "") (h2 : env.path_exists l = true)
    (h3 : aggregate env l ≠ []) :
    aggregate env l =
      get_folder_permissions env l ++
        ((get_subfolders_walk env l).map
          (fun folder => get_folder_permissions env folder)).flatten ∧
    submit_link env timestamp (some l) =
      ⟨200, some ("permissions_report_" ++ timestamp ++ ".csv"),
        some ("permissions_report_" ++ timestamp ++ ".csv",
          csvContent (headers :: (aggregate env l).map recordFields))⟩ := by
  constructor
  · exact foldl_append_flatten _ _ _
  · have h3e : (aggregate env l).isEmpty = false := List.isEmpty_eq_false.mpr h3
    simp [submit_link, h1, h2, h3e, write_permissions_to_csv]

/-- C6 witness: a demo environment with two subfolders. -/
theorem submit_link_concatenation_order_witness :
    aggregate envDemo "C:\\data" =
      get_folder_permissions envDemo "C:\\data" ++
        ((get_subfolders_walk envDemo "C:\\data").map
          (fun folder => get_folder_permissions envDemo folder)).flatten :=
  (submit_link_concatenation_order envDemo "2025-01-01_00-00-00" "C:\\data"
    (by decide) rfl (by decide)).1

end NetworkTool
